import Mathlib

/-!
Shallow embedding of `src/main.py` (SAN switch tooling): the WWPN regex
matcher, the alias-section parser, the switchshow port-table parser and the
Brocade zone-command generator, together with theorems checking the
specification's claims against this embedding.
-/

set_option maxRecDepth 8192

namespace SANswTools

/-- Characters accepted by the regex character class of lowercase hex digits
used in `wwpn_regex` (main.py lines 46 and 120). -/
def isLowerHexDigit (c : Char) : Bool :=
  (48 ≤ c.toNat && c.toNat ≤ 57) || (97 ≤ c.toNat && c.toNat ≤ 102)

/-- Python `str.strip` whitespace test (ASCII whitespace). -/
def pyIsSpace (c : Char) : Bool :=
  c.toNat == 32 || (9 ≤ c.toNat && c.toNat ≤ 13)

/-- Python `str.strip()`. -/
def pyStrip (s : String) : String :=
  ⟨((s.data.dropWhile pyIsSpace).reverse.dropWhile pyIsSpace).reverse⟩

/-- Python `str.lower()` on one ASCII character. -/
def pyCharLower (c : Char) : Char :=
  if 65 ≤ c.toNat && c.toNat ≤ 90 then Char.ofNat (c.toNat + 32) else c

/-- Python `str.lower()`. -/
def strLower (s : String) : String := ⟨s.data.map pyCharLower⟩

/-- Python `str.upper()` on one ASCII character. -/
def pyCharUpper (c : Char) : Char :=
  if 97 ≤ c.toNat && c.toNat ≤ 122 then Char.ofNat (c.toNat - 32) else c

/-- Python `str.upper()`. -/
def strUpper (s : String) : String := ⟨s.data.map pyCharUpper⟩

/-- Boolean test that a character list begins with a given pattern list. -/
def listStartsWith : List Char → List Char → Bool
  | _, [] => true
  | [], _ :: _ => false
  | c :: cs, p :: ps => c = p && listStartsWith cs ps

/-- Python `s.startswith(pat)`. -/
def strStartsWith (s pat : String) : Bool := listStartsWith s.data pat.data

/-- Boolean substring test on character lists (pattern given first). -/
def listContainsSub (pat : List Char) : List Char → Bool
  | [] => listStartsWith [] pat
  | c :: rest => listStartsWith (c :: rest) pat || listContainsSub pat rest

/-- Python `pat in s` substring test. -/
def strContains (s pat : String) : Bool := listContainsSub pat.data s.data

/-- Membership of a character in a character list, as a Boolean. -/
def listHasChar : List Char → Char → Bool
  | [], _ => false
  | c :: rest, x => c = x || listHasChar rest x

/-- Python `s.split(sep, 1)[1]` for a one-character separator: everything after
the first colon (used for `clean_line.split(":", 1)` at main.py line 56). -/
def afterFirstColon : List Char → List Char
  | [] => []
  | c :: rest => if c = ':' then rest else afterFirstColon rest

/-- Worker for Python `str.split()`: first argument is the current token read
so far, reversed; second is the remaining input. -/
def splitWsGo : List Char → List Char → List String
  | cur, [] => if cur.isEmpty then [] else [⟨cur.reverse⟩]
  | cur, c :: rest =>
    if pyIsSpace c then
      if cur.isEmpty then splitWsGo [] rest
      else ⟨cur.reverse⟩ :: splitWsGo [] rest
    else splitWsGo (c :: cur) rest

/-- Python `str.split()` with no argument: split on whitespace runs, producing
no empty tokens (main.py line 148). -/
def pySplitWs (s : String) : List String := splitWsGo [] s.data

/-- Python `str.isdigit` restricted to ASCII decimal digits
(main.py line 149). -/
def pyIsDigitStr (s : String) : Bool :=
  !s.data.isEmpty && s.data.all (fun c => 48 ≤ c.toNat && c.toNat ≤ 57)

/-- Tail of the WWPN pattern: `k` further groups of the shape colon then two
lowercase hex digits. -/
def matchTail : Nat → List Char → Option (List Char)
  | 0, _ => some []
  | k+1, c :: a :: b :: rest =>
    if c = ':' && isLowerHexDigit a && isLowerHexDigit b then
      match matchTail k rest with
      | some t => some (c :: a :: b :: t)
      | none => none
    else none
  | _+1, _ => none

/-- Match of the full WWPN pattern of `wwpn_regex` (eight 2-digit lowercase hex
groups joined by colons) as a prefix of the character list; returns the
matched characters. -/
def matchWWPNAt : List Char → Option (List Char)
  | a :: b :: rest =>
    if isLowerHexDigit a && isLowerHexDigit b then
      match matchTail 7 rest with
      | some t => some (a :: b :: t)
      | none => none
    else none
  | _ => none

/-- Leftmost-match search, as Python `re.search` performs for this fixed-shape
pattern: try each start position from the left. -/
def wwpnSearchAux : List Char → Option (List Char)
  | [] => none
  | c :: rest =>
    match matchWWPNAt (c :: rest) with
    | some m => some m
    | none => wwpnSearchAux rest

/-- Embedding of `wwpn_regex.search(line)` followed by `.group(0)`
(main.py lines 46, 61 and 120, 145). -/
def wwpn_regex_search (s : String) : Option String :=
  match wwpnSearchAux s.data with
  | some m => some ⟨m⟩
  | none => none

/-- Tail of the canonical WWPN shape: exactly `k` further colon-plus-two-hex
groups and nothing else. -/
def canonTail : Nat → List Char → Bool
  | 0, [] => true
  | 0, _ :: _ => false
  | k+1, c :: a :: b :: rest =>
    c = ':' && isLowerHexDigit a && isLowerHexDigit b && canonTail k rest
  | _+1, _ => false

/-- Canonical WWPN shape on characters: eight colon-separated groups of exactly
two lowercase hex digits and nothing else (the spec's data-model invariant for
a WWPN). -/
def isCanonChars : List Char → Bool
  | a :: b :: rest => isLowerHexDigit a && isLowerHexDigit b && canonTail 7 rest
  | _ => false

/-- Canonical (lowercase) WWPN string. -/
def isCanonicalWWPN (s : String) : Bool := isCanonChars s.data

/-- Outcome of opening a text file and iterating over its lines: the parsers
wrap `open` and the `for line in f` loop in a `try` block, so an exception can
be raised either at `open` (then `lines = []` and `failed = true`) or while
iterating, after some prefix `lines` of the file was already delivered
(`failed = true`); `failed = false` is a complete successful read. -/
structure ReadOutcome where
  lines : List String
  failed : Bool
deriving DecidableEq

/-- Python dict with string keys and values, as an insertion-ordered
association list with unique keys. -/
abbrev Dict := List (String × String)

/-- Lookup in a `Dict`. -/
def dictLookup : Dict → String → Option String
  | [], _ => none
  | (k, v) :: rest, key => if k = key then some v else dictLookup rest key

/-- Python `d.get(key, dflt)`. -/
def dictGet (m : Dict) (key dflt : String) : String :=
  match dictLookup m key with
  | some v => v
  | none => dflt

/-- Python `d[key] = v`: overwrite in place when the key exists, append
otherwise. -/
def dictInsert (m : Dict) (key v : String) : Dict :=
  if m.any (fun p => p.1 = key) then
    m.map (fun p => if p.1 = key then (key, v) else p)
  else m ++ [(key, v)]

/-- State of the alias-section scan in `parse_aliases_from_txt`
(main.py lines 47, 51): the accumulated `alias_map` and the Python variable
`last_alias_name` (which can be `None` or a string, possibly empty). -/
structure AliasState where
  map : Dict
  pending : Option String
deriving DecidableEq

/-- Python truthiness of `last_alias_name`: `None` and the empty string are
falsy. -/
def pyTruthy : Option String → Bool
  | none => false
  | some s => !(s = "")

/-- Body of the `for line in f` loop of `parse_aliases_from_txt`
(main.py lines 52-64). -/
def aliasStep (st : AliasState) (raw : String) : AliasState :=
  let clean := pyStrip raw
  if strStartsWith clean "alias:" then
    if listHasChar clean.data ':' then
      { st with pending := some (pyStrip ⟨afterFirstColon clean.data⟩) }
    else st
  else if pyTruthy st.pending then
    match wwpn_regex_search clean with
    | some m => ⟨dictInsert st.map (strLower m) (st.pending.getD ""), none⟩
    | none => st
  else st

/-- Embedding of `parse_aliases_from_txt` (main.py lines 36-67): scan the
delivered lines; any exception is caught and the accumulated `alias_map` is
returned as is. -/
def parse_aliases_from_txt (input : ReadOutcome) : Dict :=
  (input.lines.foldl aliasStep ⟨[], none⟩).map

/-- One row appended to `port_data` by `parse_switchshow_from_txt`
(main.py line 155): the dict with keys Port Index, Alias, WWPN and
Zone Name. -/
structure PortRecord where
  portIndex : String
  aliasName : String
  wwpn : String
  zoneName : String
deriving DecidableEq

/-- Scan state of `parse_switchshow_from_txt`: the Boolean
`in_switchshow_section` together with a third absorbing value for the state
after the `break` at main.py line 142 (once the loop has exited, nothing is
scanned any more, not even a later header line). -/
inductive ScanSt
  | outside
  | inside
  | stopped
deriving DecidableEq

/-- Accumulator of the switchshow scan: the control state and the `port_data`
rows collected so far. -/
structure ScanAcc where
  st : ScanSt
  recs : List PortRecord
deriving DecidableEq

/-- Candidate-row extraction of main.py lines 145-155, applied to one already
stripped line while inside the section: the line must contain a WWPN match
and the substrings `F-Port` and `Online`; its whitespace-split columns must
number more than one with a digit-only first column, which becomes the port
index. The alias falls back to `Port_<index>` and the zone to the empty
string. -/
def candidateRecord (aliases zones : Dict) (line : String) : Option PortRecord :=
  match wwpn_regex_search line with
  | none => none
  | some m =>
    if strContains line "F-Port" && strContains line "Online" then
      let wwpn := strLower m
      match pySplitWs line with
      | c0 :: _ :: _ =>
        if pyIsDigitStr c0 then
          let alias_name := dictGet aliases wwpn ("Port_" ++ c0)
          let zone_name := dictGet zones alias_name ""
          some ⟨c0, alias_name, wwpn, zone_name⟩
        else none
      | _ => none
    else none

/-- Body of the `for line in f` loop of `parse_switchshow_from_txt`
(main.py lines 127-155): strip the line; a header line (re)enters the
section; inside the section a line containing `admin>` stops the scan for
good (`break`); otherwise a candidate row may be appended. -/
def stepLine (aliases zones : Dict) (acc : ScanAcc) (raw : String) : ScanAcc :=
  match acc.st with
  | ScanSt.stopped => acc
  | ScanSt.outside =>
    let line := pyStrip raw
    if strStartsWith line "Index Port Address" then ⟨ScanSt.inside, acc.recs⟩
    else acc
  | ScanSt.inside =>
    let line := pyStrip raw
    if strStartsWith line "Index Port Address" then ⟨ScanSt.inside, acc.recs⟩
    else if strContains line "admin>" then ⟨ScanSt.stopped, acc.recs⟩
    else
      match candidateRecord aliases zones line with
      | some r => ⟨ScanSt.inside, acc.recs ++ [r]⟩
      | none => acc

/-- Embedding of `parse_switchshow_from_txt` (main.py lines 106-163): any
read failure is caught and yields `none`; a successful scan yields `none`
when `port_data` stayed empty (the code returns `None` in both cases) and
`some` rows otherwise. -/
def parse_switchshow_from_txt (input : ReadOutcome) (aliases zones : Dict) :
    Option (List PortRecord) :=
  if input.failed then none
  else
    let recs := (input.lines.foldl (stepLine aliases zones)
      ⟨ScanSt.outside, []⟩).recs
    if recs.isEmpty then none else some recs

/-- Rows kept by the zone-command generator: the pandas filter on a non-null,
non-empty Zone Name column (main.py line 204; with string data `notna()` is
always true). -/
def zonedRecords (records : List PortRecord) : List PortRecord :=
  records.filter (fun r => !(r.zoneName = ""))

/-- Append a name to the accumulator unless already present (first-seen
deduplication). -/
def insertName (acc : List String) (z : String) : List String :=
  if z ∈ acc then acc else acc ++ [z]

/-- Distinct zone names of the rows in first-seen order. -/
def firstSeenZoneNames (records : List PortRecord) : List String :=
  records.foldl (fun acc r => insertName acc r.zoneName) []

/-- Python string comparison: lexicographic by code point, a strict prefix
being smaller. -/
def listLexLt : List Char → List Char → Bool
  | _, [] => false
  | [], _ :: _ => true
  | a :: as, b :: bs =>
    if a.toNat < b.toNat then true
    else if b.toNat < a.toNat then false
    else listLexLt as bs

/-- Insertion into an ascending list under `listLexLt`. -/
def insertAsc (z : String) : List String → List String
  | [] => [z]
  | y :: ys => if listLexLt z.data y.data then z :: y :: ys else y :: insertAsc z ys

/-- Insertion sort ascending under the Python string order, modelling the
sorted group keys that `DataFrame.groupby` (default `sort=True`) iterates
over (main.py line 209). -/
def sortAsc : List String → List String
  | [] => []
  | z :: zs => insertAsc z (sortAsc zs)

/-- Python `";".join(members)` (main.py line 212). -/
def joinSemicolon : List String → String
  | [] => ""
  | [m] => m
  | m :: rest => m ++ ";" ++ joinSemicolon rest

/-- The f-string of main.py line 213. -/
def zoneCmdString (z members : String) : String :=
  "zonecreate \"" ++ z ++ "\", \"" ++ members ++ "\""

/-- Embedding of `generate_brocade_zone_commands` (main.py lines 192-216):
filter rows to those with a non-empty Zone Name, return `[]` when none
remain, otherwise iterate the groupby groups — sorted distinct zone names,
each with its rows in original order — and emit one `zonecreate` command per
group. -/
def generate_brocade_zone_commands (records : List PortRecord) : List String :=
  let zoned := zonedRecords records
  if zoned.isEmpty then []
  else
    (sortAsc (firstSeenZoneNames zoned)).map (fun z =>
      zoneCmdString z (joinSemicolon
        ((zoned.filter (fun r => r.zoneName = z)).map (fun r => r.aliasName))))

/-- Modelled from the amended claim's words: the distinct non-empty zone
names, taken from the records' zone-name sequence. -/
def specZoneNames (records : List PortRecord) : List String :=
  ((records.map (fun r => r.zoneName)).filter (fun z => !(z = ""))).foldl
    insertName []

/-- Modelled from the amended claim's words: one `zonecreate` command per
distinct non-empty zone name, groups ordered ascending lexicographically by
zone name, members listed in first-seen record order joined by semicolons. -/
def zoneCommandsSpec (records : List PortRecord) : List String :=
  (sortAsc (specZoneNames records)).map (fun z =>
    zoneCmdString z (joinSemicolon
      ((records.filter (fun r => r.zoneName = z)).map (fun r => r.aliasName))))

theorem pyCharLower_hex (c : Char) (h : isLowerHexDigit c = true) :
    pyCharLower c = c := by
  simp only [isLowerHexDigit, Bool.or_eq_true, Bool.and_eq_true,
    decide_eq_true_eq] at h
  simp only [pyCharLower, Bool.and_eq_true, decide_eq_true_eq]
  split
  · omega
  · rfl

theorem pyCharLower_colon (c : Char) (h : (c = ':')) : pyCharLower c = c := by
  subst h; rfl

theorem matchTail_canon (k : Nat) :
    ∀ cs t, matchTail k cs = some t → canonTail k t = true := by
  induction k with
  | zero =>
    intro cs t h
    simp only [matchTail, Option.some.injEq] at h
    subst h
    rfl
  | succ k ih =>
    intro cs t h
    match cs with
    | [] => simp [matchTail] at h
    | [c] => simp [matchTail] at h
    | [c, a] => simp [matchTail] at h
    | c :: a :: b :: rest =>
      simp only [matchTail] at h
      split at h
      case isTrue hg =>
        cases hm : matchTail k rest with
        | some t' =>
          rw [hm] at h
          simp only [Option.some.injEq] at h
          subst h
          simp only [Bool.and_eq_true, decide_eq_true_eq] at hg
          simp only [canonTail, Bool.and_eq_true, decide_eq_true_eq]
          exact ⟨⟨⟨hg.1.1, hg.1.2⟩, hg.2⟩, ih rest t' hm⟩
        | none => rw [hm] at h; exact absurd h (by simp)
      case isFalse hg => exact absurd h (by simp)

theorem canonTail_match (k : Nat) :
    ∀ cs, canonTail k cs = true → matchTail k cs = some cs := by
  induction k with
  | zero =>
    intro cs h
    match cs with
    | [] => rfl
    | c :: rest => simp [canonTail] at h
  | succ k ih =>
    intro cs h
    match cs with
    | [] => simp [canonTail] at h
    | [c] => simp [canonTail] at h
    | [c, a] => simp [canonTail] at h
    | c :: a :: b :: rest =>
      simp only [canonTail, Bool.and_eq_true, decide_eq_true_eq] at h
      simp only [matchTail]
      rw [if_pos]
      · rw [ih rest h.2]
      · simp only [Bool.and_eq_true, decide_eq_true_eq]
        exact ⟨⟨h.1.1.1, h.1.1.2⟩, h.1.2⟩

theorem canonTail_lower (k : Nat) :
    ∀ cs, canonTail k cs = true → cs.map pyCharLower = cs := by
  induction k with
  | zero =>
    intro cs h
    match cs with
    | [] => rfl
    | c :: rest => simp [canonTail] at h
  | succ k ih =>
    intro cs h
    match cs with
    | [] => simp [canonTail] at h
    | [c] => simp [canonTail] at h
    | [c, a] => simp [canonTail] at h
    | c :: a :: b :: rest =>
      simp only [canonTail, Bool.and_eq_true, decide_eq_true_eq] at h
      simp only [List.map_cons, List.cons.injEq]
      exact ⟨pyCharLower_colon c h.1.1.1, pyCharLower_hex a h.1.1.2,
        pyCharLower_hex b h.1.2, ih rest h.2⟩

theorem matchWWPNAt_canon (cs t : List Char) (h : matchWWPNAt cs = some t) :
    isCanonChars t = true := by
  match cs with
  | [] => simp [matchWWPNAt] at h
  | [a] => simp [matchWWPNAt] at h
  | a :: b :: rest =>
    simp only [matchWWPNAt] at h
    split at h
    case isTrue hg =>
      cases hm : matchTail 7 rest with
      | some t' =>
        rw [hm] at h
        simp only [Option.some.injEq] at h
        subst h
        simp only [isCanonChars, Bool.and_eq_true] at *
        exact ⟨⟨hg.1, hg.2⟩, matchTail_canon 7 rest t' hm⟩
      | none => rw [hm] at h; exact absurd h (by simp)
    case isFalse hg => exact absurd h (by simp)

theorem canon_matchWWPNAt (cs : List Char) (h : isCanonChars cs = true) :
    matchWWPNAt cs = some cs := by
  match cs with
  | [] => simp [isCanonChars] at h
  | [a] => simp [isCanonChars] at h
  | a :: b :: rest =>
    simp only [isCanonChars, Bool.and_eq_true] at h
    simp only [matchWWPNAt]
    rw [if_pos]
    · rw [canonTail_match 7 rest h.2]
    · simp only [Bool.and_eq_true]
      exact h.1

theorem wwpnSearchAux_canon (cs : List Char) :
    ∀ m, wwpnSearchAux cs = some m → isCanonChars m = true := by
  induction cs with
  | nil => intro m h; simp [wwpnSearchAux] at h
  | cons c rest ih =>
    intro m h
    simp only [wwpnSearchAux] at h
    cases hm : matchWWPNAt (c :: rest) with
    | some t =>
      rw [hm] at h
      simp only [Option.some.injEq] at h
      subst h
      exact matchWWPNAt_canon _ _ hm
    | none =>
      rw [hm] at h
      exact ih m h

theorem canon_searchAux (cs : List Char) (h : isCanonChars cs = true) :
    wwpnSearchAux cs = some cs := by
  match cs with
  | [] => simp [isCanonChars] at h
  | c :: rest =>
    simp only [wwpnSearchAux]
    rw [canon_matchWWPNAt _ h]

theorem isCanonChars_lower (cs : List Char) (h : isCanonChars cs = true) :
    cs.map pyCharLower = cs := by
  match cs with
  | [] => simp [isCanonChars] at h
  | [a] => simp [isCanonChars] at h
  | a :: b :: rest =>
    simp only [isCanonChars, Bool.and_eq_true] at h
    simp only [List.map_cons, List.cons.injEq]
    exact ⟨pyCharLower_hex a h.1.1, pyCharLower_hex b h.1.2,
      canonTail_lower 7 rest h.2⟩

/-- C1, counterexample: the valid WWPN string `aa:bb:cc:dd:ee:ff:00:11` is
matched and returned unchanged, but after uppercasing it the matcher finds
nothing (the regex accepts lowercase hex digits only), refuting the claimed
case-insensitive matching and the claimed uppercasing round-trip. -/
theorem C1_counterexample :
    wwpn_regex_search "aa:bb:cc:dd:ee:ff:00:11" = some "aa:bb:cc:dd:ee:ff:00:11"
    ∧ wwpn_regex_search (strUpper "aa:bb:cc:dd:ee:ff:00:11") = none := by
  constructor
  · decide
  · decide

/-- C1 (amended): the matcher is case-sensitive and accepts lowercase hex
digits only; every returned match has the canonical eight-group lowercase
shape and is left unchanged by the `.lower()` normalization, and every
canonical lowercase WWPN string re-matches to the identical string. -/
theorem C1_amended (s m w : String)
    (hm : wwpn_regex_search s = some m)
    (hw : isCanonicalWWPN w = true) :
    (isCanonicalWWPN m = true ∧ strLower m = m)
    ∧ wwpn_regex_search w = some w := by
  refine ⟨?_, ?_⟩
  · simp only [wwpn_regex_search] at hm
    cases hs : wwpnSearchAux s.data with
    | some t =>
      rw [hs] at hm
      simp only [Option.some.injEq] at hm
      subst hm
      have hc : isCanonChars t = true := wwpnSearchAux_canon _ _ hs
      constructor
      · exact hc
      · simp only [strLower]
        rw [isCanonChars_lower t hc]
    | none => rw [hs] at hm; exact absurd hm (by simp)
  · simp only [wwpn_regex_search]
    rw [canon_searchAux w.data hw]

/-- C1, witness: the amended theorem evaluated on a line containing a valid
lowercase WWPN. -/
theorem C1_witness :
    wwpn_regex_search "switch 10:00:00:00:c9:aa:bb:cc port"
      = some "10:00:00:00:c9:aa:bb:cc"
    ∧ ((isCanonicalWWPN "10:00:00:00:c9:aa:bb:cc" = true
        ∧ strLower "10:00:00:00:c9:aa:bb:cc" = "10:00:00:00:c9:aa:bb:cc")
      ∧ wwpn_regex_search "10:00:00:00:c9:aa:bb:cc"
          = some "10:00:00:00:c9:aa:bb:cc") :=
  ⟨by decide,
   C1_amended "switch 10:00:00:00:c9:aa:bb:cc port" "10:00:00:00:c9:aa:bb:cc"
     "10:00:00:00:c9:aa:bb:cc" (by decide) (by decide)⟩

theorem listStartsWith_hasChar :
    ∀ (pat cs : List Char) (x : Char), listStartsWith cs pat = true →
      listHasChar pat x = true → listHasChar cs x = true := by
  intro pat
  induction pat with
  | nil => intro cs x _ h2; simp [listHasChar] at h2
  | cons p ps ih =>
    intro cs x h1 h2
    match cs with
    | [] => simp [listStartsWith] at h1
    | c :: cs' =>
      simp only [listStartsWith, Bool.and_eq_true, decide_eq_true_eq] at h1
      simp only [listHasChar, Bool.or_eq_true, decide_eq_true_eq] at h2 ⊢
      cases h2 with
      | inl hpx => exact Or.inl (h1.1.trans hpx)
      | inr hrest => exact Or.inr (ih cs' x h1.2 hrest)

/-- C2, counterexample: with a non-matching line between `alias: AliasA` and a
WWPN-bearing line, the WWPN is still recorded under `AliasA`, refuting the
claim that the pending alias is cleared after the one following line. -/
theorem C2_counterexample :
    parse_aliases_from_txt
        ⟨["alias: AliasA", "interleaved noise", "10:00:00:00:c9:aa:bb:cc"],
          false⟩
      = [("10:00:00:00:c9:aa:bb:cc", "AliasA")] := by decide

/-- C2 (amended): a line that neither starts with `alias:` (after stripping)
nor contains a WWPN match leaves the scan state, including the pending alias
name, unchanged; deleting such a line from the input does not change the
parser's output, so a WWPN two or more lines after an `alias:` line is still
recorded under that alias. -/
theorem C2_amended (pre rest : List String) (mid : String) (b : Bool)
    (h1 : strStartsWith (pyStrip mid) "alias:" = false)
    (h2 : wwpn_regex_search (pyStrip mid) = none) :
    parse_aliases_from_txt ⟨pre ++ mid :: rest, b⟩
      = parse_aliases_from_txt ⟨pre ++ rest, b⟩ := by
  have hstep : ∀ st : AliasState, aliasStep st mid = st := by
    intro st
    simp only [aliasStep, h1, Bool.false_eq_true, if_false]
    split
    · rw [h2]
    · rfl
  simp only [parse_aliases_from_txt, List.foldl_append, List.foldl_cons, hstep]

/-- C2, witness: the amended theorem evaluated on a three-line alias section
with a noise line between the alias header and the WWPN line. -/
theorem C2_witness :
    parse_aliases_from_txt
        ⟨["alias: AliasA"] ++ "interleaved noise" ::
          ["10:00:00:00:c9:aa:bb:cc"], false⟩
      = parse_aliases_from_txt
          ⟨["alias: AliasA"] ++ ["10:00:00:00:c9:aa:bb:cc"], false⟩ :=
  C2_amended ["alias: AliasA"] ["10:00:00:00:c9:aa:bb:cc"]
    "interleaved noise" false (by decide) (by decide)

/-- C8, counterexample: an execution in which reading fails after two lines
were already delivered returns a non-empty (partial) mapping, refuting the
claim that a read failure always yields an empty mapping. -/
theorem C8_counterexample :
    parse_aliases_from_txt ⟨["alias: AliasA", "10:00:00:00:c9:aa:bb:cc"], true⟩
      = [("10:00:00:00:c9:aa:bb:cc", "AliasA")] := by decide

/-- C8 (amended): the parser never raises; on a read failure it returns
exactly the mapping accumulated from the lines delivered before the failure,
the same value a successful parse of those lines returns, and this mapping is
empty when the failure happens before any line was delivered (for example a
missing file). -/
theorem C8_amended (lines : List String) :
    parse_aliases_from_txt ⟨lines, true⟩ = parse_aliases_from_txt ⟨lines, false⟩
    ∧ parse_aliases_from_txt (⟨[], true⟩ : ReadOutcome) = [] :=
  ⟨rfl, rfl⟩

/-- C10: processing an `alias:` line overwrites the pending alias name with
the new line's name and leaves the accumulated mapping untouched, so an
`alias:` line immediately preceding another `alias:` line has no effect at
all on the parse; the earlier pending name never reaches the output. -/
theorem C10_theorem (st : AliasState) (lA lB : String)
    (hA : strStartsWith (pyStrip lA) "alias:" = true)
    (hB : strStartsWith (pyStrip lB) "alias:" = true) :
    aliasStep (aliasStep st lA) lB = aliasStep st lB
    ∧ (aliasStep st lB).map = st.map
    ∧ (aliasStep st lB).pending
        = some (pyStrip ⟨afterFirstColon (pyStrip lB).data⟩) := by
  have hA' : listStartsWith (pyStrip lA).data ("alias:".data) = true := hA
  have hB' : listStartsWith (pyStrip lB).data ("alias:".data) = true := hB
  have hcolA : listHasChar (pyStrip lA).data ':' = true :=
    listStartsWith_hasChar _ _ _ hA' (by decide)
  have hcolB : listHasChar (pyStrip lB).data ':' = true :=
    listStartsWith_hasChar _ _ _ hB' (by decide)
  refine ⟨?_, ?_, ?_⟩ <;>
    simp [aliasStep, hA, hB, hcolA, hcolB]

/-- C10, witness: the theorem evaluated on two consecutive `alias:` lines with
an older pending name in the state. -/
theorem C10_witness :
    aliasStep (aliasStep ⟨[], some "OldPending"⟩ "alias: NameA") "alias: NameB"
      = aliasStep ⟨[], some "OldPending"⟩ "alias: NameB"
    ∧ (aliasStep (⟨[], some "OldPending"⟩ : AliasState) "alias: NameB").map = []
    ∧ (aliasStep (⟨[], some "OldPending"⟩ : AliasState) "alias: NameB").pending
        = some "NameB" := by
  have h := C10_theorem ⟨[], some "OldPending"⟩ "alias: NameA" "alias: NameB"
    (by decide) (by decide)
  exact ⟨h.1, h.2.1, h.2.2.trans (by decide)⟩

theorem stepLine_stopped (aliases zones : Dict) (acc : ScanAcc) (raw : String)
    (h : acc.st = ScanSt.stopped) : stepLine aliases zones acc raw = acc := by
  obtain ⟨st, recs⟩ := acc
  simp only at h
  subst h
  rfl

theorem foldl_stepLine_stopped (aliases zones : Dict) (acc : ScanAcc)
    (h : acc.st = ScanSt.stopped) (ls : List String) :
    ls.foldl (stepLine aliases zones) acc = acc := by
  induction ls with
  | nil => rfl
  | cons x xs ih =>
    rw [List.foldl_cons, stepLine_stopped aliases zones acc x h]
    exact ih

theorem stepLine_inside_admin (aliases zones : Dict) (acc : ScanAcc)
    (raw : String) (hst : acc.st = ScanSt.inside)
    (hAdmin : strContains (pyStrip raw) "admin>" = true)
    (hNotHeader : strStartsWith (pyStrip raw) "Index Port Address" = false) :
    stepLine aliases zones acc raw = ⟨ScanSt.stopped, acc.recs⟩ := by
  obtain ⟨st, recs⟩ := acc
  simp only at hst
  subst hst
  simp [stepLine, hAdmin, hNotHeader]

theorem stepLine_outside (aliases zones : Dict) (acc : ScanAcc) (raw : String)
    (hst : acc.st = ScanSt.outside)
    (hNotHeader : strStartsWith (pyStrip raw) "Index Port Address" = false) :
    stepLine aliases zones acc raw = acc := by
  obtain ⟨st, recs⟩ := acc
  simp only at hst
  subst hst
  simp [stepLine, hNotHeader]

theorem foldl_stepLine_outside (aliases zones : Dict) :
    ∀ (lines : List String) (acc : ScanAcc), acc.st = ScanSt.outside →
      (∀ l ∈ lines, strStartsWith (pyStrip l) "Index Port Address" = false) →
      lines.foldl (stepLine aliases zones) acc = acc := by
  intro lines
  induction lines with
  | nil => intro acc _ _; rfl
  | cons x xs ih =>
    intro acc hacc h
    rw [List.foldl_cons,
      stepLine_outside aliases zones acc x hacc (h x (List.mem_cons_self x xs))]
    exact ih acc hacc (fun l hl => h l (List.mem_cons_of_mem x hl))

theorem candidateRecord_none (aliases zones : Dict) (line : String)
    (h : strContains line "F-Port" = false ∨ strContains line "Online" = false
      ∨ pyIsDigitStr ((pySplitWs line).headD "") = false) :
    candidateRecord aliases zones line = none := by
  cases hs : wwpn_regex_search line with
  | none => simp [candidateRecord, hs]
  | some m =>
    rcases h with h | h | h
    · simp [candidateRecord, hs, h]
    · simp [candidateRecord, hs, h]
    · simp only [candidateRecord, hs]
      split
      case isTrue =>
        cases hsp : pySplitWs line with
        | nil => rfl
        | cons c0 cs =>
          cases cs with
          | nil => rfl
          | cons c1 rest =>
            rw [hsp] at h
            simp only [List.headD_cons] at h
            simp [h]
      case isFalse => rfl

/-- C3, counterexample: one execution with a failed file read and one
successful execution that parsed zero port rows return the identical value
`none`, so a caller cannot tell the two outcomes apart from the returned
value, refuting the claimed distinction. -/
theorem C3_counterexample :
    parse_switchshow_from_txt ⟨[], true⟩ [] [] = none
    ∧ parse_switchshow_from_txt
        ⟨["Index Port Address Media Speed State Proto"], false⟩ [] [] = none :=
  ⟨rfl, by decide⟩

/-- C3 (amended): the port-table parser returns `none` exactly when the read
failed or the scan produced zero rows; both outcomes collapse to the same
returned value and are not distinguishable from it. -/
theorem C3_amended (input : ReadOutcome) (aliases zones : Dict) :
    parse_switchshow_from_txt input aliases zones = none
      ↔ (input.failed = true
        ∨ (input.lines.foldl (stepLine aliases zones)
            ⟨ScanSt.outside, []⟩).recs = []) := by
  obtain ⟨lines, failed⟩ := input
  cases failed with
  | true => simp [parse_switchshow_from_txt]
  | false =>
    simp only [parse_switchshow_from_txt, Bool.false_eq_true, if_false]
    cases h : (lines.foldl (stepLine aliases zones) ⟨ScanSt.outside, []⟩).recs with
    | nil => simp [h]
    | cons r rs => simp [h]

/-- C5, counterexample: a candidate line whose WWPN is absent from the alias
mapping synthesizes the alias `Port_3`, but when the zone mapping happens to
contain the key `Port_3` the resulting record carries that zone, refuting the
claim that such records always have an empty `zoneName`. -/
theorem C5_counterexample :
    parse_switchshow_from_txt
        ⟨["Index Port Address Media Speed State Proto",
          "3 1 012300 id N8 Online FC F-Port 10:00:00:00:c9:aa:bb:cc"], false⟩
        [] [("Port_3", "ZoneX")]
      = some [⟨"3", "Port_3", "10:00:00:00:c9:aa:bb:cc", "ZoneX"⟩] := by decide

/-- C5 (amended): a candidate line whose extracted WWPN is not a key of the
alias mapping yields a record whose alias is exactly `Port_<index>` with the
literal leading digit token of the line as index, and whose zone name is the
zone mapping's entry for that synthesized alias — the empty string when the
synthesized alias is not a key of the zone mapping. -/
theorem C5_amended (aliases zones : Dict) (line : String) (r : PortRecord)
    (hc : candidateRecord aliases zones line = some r)
    (hmiss : dictLookup aliases r.wwpn = none) :
    r.aliasName = "Port_" ++ r.portIndex
    ∧ r.portIndex = (pySplitWs line).headD ""
    ∧ r.zoneName = dictGet zones r.aliasName "" := by
  cases hs : wwpn_regex_search line with
  | none => rw [candidateRecord, hs] at hc; exact absurd hc (by simp)
  | some m =>
    simp only [candidateRecord, hs] at hc
    split at hc
    case isFalse => exact absurd hc (by simp)
    case isTrue =>
      cases hsp : pySplitWs line with
      | nil => simp only [hsp] at hc; exact absurd hc (by simp)
      | cons c0 cs =>
        cases cs with
        | nil => simp only [hsp] at hc; exact absurd hc (by simp)
        | cons c1 rest =>
          simp only [hsp] at hc
          split at hc
          case isFalse => exact absurd hc (by simp)
          case isTrue =>
            simp only [Option.some.injEq] at hc
            subst hc
            simp only at hmiss
            refine ⟨?_, ?_, ?_⟩
            · simp [dictGet, hmiss]
            · simp [hsp]
            · rfl

/-- C5, witness: the amended theorem evaluated on a concrete candidate line
with empty alias and zone mappings. -/
theorem C5_witness :
    (⟨"3", "Port_3", "10:00:00:00:c9:aa:bb:cc", ""⟩ : PortRecord).aliasName
      = "Port_"
        ++ (⟨"3", "Port_3", "10:00:00:00:c9:aa:bb:cc", ""⟩ : PortRecord).portIndex
    ∧ (⟨"3", "Port_3", "10:00:00:00:c9:aa:bb:cc", ""⟩ : PortRecord).portIndex
        = (pySplitWs
            "3 1 012300 id N8 Online FC F-Port 10:00:00:00:c9:aa:bb:cc").headD ""
    ∧ (⟨"3", "Port_3", "10:00:00:00:c9:aa:bb:cc", ""⟩ : PortRecord).zoneName
        = dictGet []
            (⟨"3", "Port_3", "10:00:00:00:c9:aa:bb:cc", ""⟩ : PortRecord).aliasName
            "" :=
  C5_amended [] [] "3 1 012300 id N8 Online FC F-Port 10:00:00:00:c9:aa:bb:cc"
    ⟨"3", "Port_3", "10:00:00:00:c9:aa:bb:cc", ""⟩ (by decide) (by decide)

/-- C6: once the scan is inside the port-table section, a line containing
`admin>` (and not itself a header line) stops the scan for good: parsing the
whole file gives the same result as parsing only the prefix that ends at that
line, so no later line contributes a record. -/
theorem C6_theorem (aliases zones : Dict) (pre post : List String) (l : String)
    (hState : (pre.foldl (stepLine aliases zones) ⟨ScanSt.outside, []⟩).st
      = ScanSt.inside)
    (hAdmin : strContains (pyStrip l) "admin>" = true)
    (hNotHeader : strStartsWith (pyStrip l) "Index Port Address" = false) :
    parse_switchshow_from_txt ⟨pre ++ l :: post, false⟩ aliases zones
      = parse_switchshow_from_txt ⟨pre ++ [l], false⟩ aliases zones := by
  have key : (pre ++ l :: post).foldl (stepLine aliases zones)
      ⟨ScanSt.outside, []⟩
      = (pre ++ [l]).foldl (stepLine aliases zones) ⟨ScanSt.outside, []⟩ := by
    rw [List.foldl_append, List.foldl_append]
    set acc := pre.foldl (stepLine aliases zones)
      (⟨ScanSt.outside, []⟩ : ScanAcc) with hacc
    rw [List.foldl_cons,
      stepLine_inside_admin aliases zones acc l hState hAdmin hNotHeader,
      foldl_stepLine_stopped aliases zones ⟨ScanSt.stopped, acc.recs⟩ rfl post]
    simp [List.foldl,
      stepLine_inside_admin aliases zones acc l hState hAdmin hNotHeader]
  simp only [parse_switchshow_from_txt, key]

/-- C6, witness: the theorem evaluated on a concrete file whose port-table
section is ended by an `admin>` prompt line, with a further header line and a
valid port row after it. -/
theorem C6_witness :
    parse_switchshow_from_txt
        ⟨["Index Port Address Media Speed State Proto"] ++ "sw01:admin> cfgshow" ::
          ["Index Port Address Media Speed State Proto",
            "3 1 012300 id N8 Online FC F-Port 10:00:00:00:c9:aa:bb:cc"],
          false⟩ [] []
      = parse_switchshow_from_txt
          ⟨["Index Port Address Media Speed State Proto"]
            ++ ["sw01:admin> cfgshow"], false⟩ [] [] :=
  C6_theorem [] [] ["Index Port Address Media Speed State Proto"]
    ["Index Port Address Media Speed State Proto",
      "3 1 012300 id N8 Online FC F-Port 10:00:00:00:c9:aa:bb:cc"]
    "sw01:admin> cfgshow" (by decide) (by decide) (by decide)

/-- C7: while inside the port-table section, a line that lacks `F-Port`,
lacks `Online`, or whose first whitespace-delimited token is not made of
decimal digits only, contributes no record: the collected rows are unchanged
by that line. -/
theorem C7_theorem (aliases zones : Dict) (raw : String)
    (recs : List PortRecord)
    (h : strContains (pyStrip raw) "F-Port" = false
      ∨ strContains (pyStrip raw) "Online" = false
      ∨ pyIsDigitStr ((pySplitWs (pyStrip raw)).headD "") = false) :
    (stepLine aliases zones ⟨ScanSt.inside, recs⟩ raw).recs = recs := by
  simp only [stepLine]
  split
  · rfl
  · split
    · rfl
    · rw [candidateRecord_none aliases zones (pyStrip raw) h]

/-- C7, witness: the theorem evaluated on a line that carries a valid WWPN,
`Online` and a digit-only first token but no `F-Port`. -/
theorem C7_witness :
    (stepLine [] [] ⟨ScanSt.inside, []⟩
      "3 1 012300 id N8 Online FC 10:00:00:00:c9:aa:bb:cc").recs = [] :=
  C7_theorem [] [] "3 1 012300 id N8 Online FC 10:00:00:00:c9:aa:bb:cc" []
    (Or.inl (by decide))

/-- C9: when no line of the file starts (after stripping) with the header
marker `Index Port Address`, the scan never enters the port-table section,
collects no rows and the parser returns the no-data signal `none`. -/
theorem C9_theorem (aliases zones : Dict) (lines : List String)
    (h : ∀ l ∈ lines, strStartsWith (pyStrip l) "Index Port Address" = false) :
    parse_switchshow_from_txt ⟨lines, false⟩ aliases zones = none
    ∧ lines.foldl (stepLine aliases zones) ⟨ScanSt.outside, []⟩
        = ⟨ScanSt.outside, []⟩ := by
  have hfold := foldl_stepLine_outside aliases zones lines
    ⟨ScanSt.outside, []⟩ rfl h
  exact ⟨by simp [parse_switchshow_from_txt, hfold], hfold⟩

/-- C9, witness: the theorem evaluated on a one-line file whose line carries a
valid WWPN, `F-Port`, `Online` and a digit-only first token but no header
line exists. -/
theorem C9_witness :
    parse_switchshow_from_txt
        ⟨["3 1 012300 id N8 Online FC F-Port 10:00:00:00:c9:aa:bb:cc"], false⟩
        [] [] = none
    ∧ ["3 1 012300 id N8 Online FC F-Port 10:00:00:00:c9:aa:bb:cc"].foldl
        (stepLine [] []) ⟨ScanSt.outside, []⟩ = ⟨ScanSt.outside, []⟩ :=
  C9_theorem [] [] ["3 1 012300 id N8 Online FC F-Port 10:00:00:00:c9:aa:bb:cc"]
    (by decide)

theorem map_congr_mem {α β : Type} (l : List α) (f g : α → β)
    (h : ∀ a ∈ l, f a = g a) : l.map f = l.map g := by
  induction l with
  | nil => rfl
  | cons x xs ih =>
    simp only [List.map_cons]
    rw [h x (List.mem_cons_self x xs),
      ih (fun a ha => h a (List.mem_cons_of_mem x ha))]

theorem foldl_names_eq (rs : List PortRecord) :
    ∀ acc, (zonedRecords rs).foldl (fun acc r => insertName acc r.zoneName) acc
      = ((rs.map (fun r => r.zoneName)).filter (fun z => !(z = ""))).foldl
          insertName acc := by
  induction rs with
  | nil => intro _; rfl
  | cons r rest ih =>
    intro acc
    by_cases hz : r.zoneName = ""
    · simp only [zonedRecords, List.filter_cons, List.map_cons, hz] at *
      simp only [decide_True, Bool.not_true, Bool.false_eq_true, if_false]
      exact ih acc
    · simp only [zonedRecords, List.filter_cons, List.map_cons] at *
      rw [if_pos, if_pos]
      · rw [List.foldl_cons, List.foldl_cons]
        exact ih (insertName acc r.zoneName)
      · simp [hz]
      · simp [hz]

theorem mem_foldl_insertName :
    ∀ (zs acc : List String) (z : String),
      z ∈ zs.foldl insertName acc → z ∈ acc ∨ z ∈ zs := by
  intro zs
  induction zs with
  | nil => intro acc z h; exact Or.inl h
  | cons y ys ih =>
    intro acc z h
    rw [List.foldl_cons] at h
    cases ih (insertName acc y) z h with
    | inl hin =>
      simp only [insertName] at hin
      split at hin
      · exact Or.inl hin
      · rw [List.mem_append] at hin
        cases hin with
        | inl hacc => exact Or.inl hacc
        | inr hy =>
          simp only [List.mem_singleton] at hy
          exact Or.inr (hy ▸ List.mem_cons_self y ys)
    | inr hys => exact Or.inr (List.mem_cons_of_mem y hys)

theorem specZoneNames_ne_empty (records : List PortRecord) (z : String)
    (h : z ∈ specZoneNames records) : ¬(z = "") := by
  cases mem_foldl_insertName _ [] z h with
  | inl habs => exact absurd habs (List.not_mem_nil z)
  | inr hin =>
    rw [List.mem_filter] at hin
    intro hz
    rw [hz] at hin
    simp at hin

theorem mem_insertAsc (y z : String) :
    ∀ l : List String, z ∈ insertAsc y l ↔ z = y ∨ z ∈ l := by
  intro l
  induction l with
  | nil => simp [insertAsc]
  | cons w ws ih =>
    simp only [insertAsc]
    split
    · simp
    · simp only [List.mem_cons, ih]
      constructor
      · rintro (h | h | h)
        · exact Or.inr (Or.inl h)
        · exact Or.inl h
        · exact Or.inr (Or.inr h)
      · rintro (h | h | h)
        · exact Or.inr (Or.inl h)
        · exact Or.inl h
        · exact Or.inr (Or.inr h)

theorem mem_sortAsc (z : String) :
    ∀ l : List String, z ∈ sortAsc l ↔ z ∈ l := by
  intro l
  induction l with
  | nil => simp [sortAsc]
  | cons y ys ih =>
    simp only [sortAsc, mem_insertAsc, ih, List.mem_cons]

theorem filter_zoned_eq (z : String) (hz : ¬(z = "")) :
    ∀ rs : List PortRecord,
      (zonedRecords rs).filter (fun r => r.zoneName = z)
        = rs.filter (fun r => r.zoneName = z) := by
  intro rs
  induction rs with
  | nil => rfl
  | cons r rest ih =>
    by_cases hb : r.zoneName = ""
    · have hnz : ¬(r.zoneName = z) := fun hc => hz (hc ▸ hb)
      simp only [zonedRecords, List.filter_cons, hb] at *
      simp only [decide_True, Bool.not_true, Bool.false_eq_true, if_false,
        hnz, decide_False]
      exact ih
    · simp only [zonedRecords, List.filter_cons] at *
      rw [if_pos (by simp [hb])]
      rw [List.filter_cons]
      by_cases hc : r.zoneName = z
      · rw [if_pos (by simp [hc]), if_pos (by simp [hc])]
        rw [ih]
      · rw [if_neg (by simp [hc]), if_neg (by simp [hc])]
        exact ih

/-- C4, counterexample: with zone `ZoneB` first seen before `ZoneA`, the
generator emits the `ZoneA` command first — pandas `groupby` iterates group
keys in sorted order, refuting the claimed first-seen group order. -/
theorem C4_counterexample :
    firstSeenZoneNames (zonedRecords
        [⟨"1", "A1", "10:00:00:00:c9:aa:bb:01", "ZoneB"⟩,
          ⟨"2", "A2", "10:00:00:00:c9:aa:bb:02", "ZoneA"⟩])
      = ["ZoneB", "ZoneA"]
    ∧ generate_brocade_zone_commands
        [⟨"1", "A1", "10:00:00:00:c9:aa:bb:01", "ZoneB"⟩,
          ⟨"2", "A2", "10:00:00:00:c9:aa:bb:02", "ZoneA"⟩]
      = ["zonecreate \"ZoneA\", \"A2\"", "zonecreate \"ZoneB\", \"A1\""] := by
  constructor
  · decide
  · decide

/-- C4 (amended): the generator groups records by non-empty zone name and
emits exactly one `zonecreate` command per distinct zone name, with the
groups ordered ascending lexicographically by zone name (not first-seen
order) and the member aliases within each command in first-seen record order
joined by semicolons. -/
theorem C4_amended (records : List PortRecord) :
    generate_brocade_zone_commands records = zoneCommandsSpec records := by
  have hnames : firstSeenZoneNames (zonedRecords records)
      = specZoneNames records := foldl_names_eq records []
  cases hzd : (zonedRecords records).isEmpty with
  | true =>
    have hempty : zonedRecords records = [] := by
      rwa [List.isEmpty_iff] at hzd
    have hspec : specZoneNames records = [] := by
      rw [← hnames, hempty]
      rfl
    simp [generate_brocade_zone_commands, zoneCommandsSpec, hzd, hspec,
      sortAsc]
  | false =>
    simp only [generate_brocade_zone_commands, hzd, Bool.false_eq_true,
      if_false, zoneCommandsSpec, hnames]
    apply map_congr_mem
    intro z hzmem
    have hz : ¬(z = "") :=
      specZoneNames_ne_empty records z ((mem_sortAsc z _).mp hzmem)
    rw [filter_zoned_eq z hz records]

end SANswTools
